import Mathlib

/-!
Verification development for the tango RPC framework (client/server dispatch,
kebab route keys, middleware pipelines, upload extraction, server context).
All definitions below are shallow embeddings of the TypeScript source:
pure functions become Lean functions, mutable context objects become explicit
state records, promise rejection becomes an error constructor, and the opaque
symmetric codecs (MessagePack, base64url) are represented symbolically.
-/

/-! ## String normalizer (src/util/string.ts)

`camelToKebabCase` applies two global regex replacements and lowercases:
  str.replace(/([a-z0-9])([A-Z])/g, "$1-$2")
     .replace(/([A-Z]+)([A-Z][a-z])/g, "$1-$2")
     .toLowerCase()
Both passes are modelled by the left-to-right, leftmost-match, greedy scan the
JS regex engine performs; a match is replaced and scanning resumes after it. -/

/-- Character class `[a-z0-9]` of the first regex (ASCII, as in the source). -/
def isLowerOrDigit (c : Char) : Bool := c.isLower || c.isDigit

/-- First pass: insert `-` between a lowercase/digit and an uppercase letter.
The two-character match is consumed and scanning resumes after it. -/
def kebabPass1 : List Char → List Char
  | a :: b :: rest =>
    if isLowerOrDigit a && b.isUpper then
      a :: '-' :: b :: kebabPass1 rest
    else
      a :: kebabPass1 (b :: rest)
  | l => l

/-- Second pass: `([A-Z]+)([A-Z][a-z])` with `$1-$2`.  At an uppercase
position the greedy `[A-Z]+` takes the maximal uppercase run minus its last
letter, and the match succeeds exactly when the run has length at least two
and is followed by a lowercase letter; the `-` lands before the run's last
letter and scanning resumes after the consumed lowercase letter.  When no
match starts at the current position the scan advances one character.
The `fuel` argument only makes the recursion structural (each step consumes at
least one character, so `fuel = l.length` always suffices, see `kebabPass2`). -/
def kebabPass2Go (fuel : Nat) (l : List Char) : List Char :=
  match fuel, l with
  | _, [] => []
  | 0, l => l
  | fuel + 1, c :: rest =>
    if c.isUpper then
      match rest.takeWhile Char.isUpper, rest.dropWhile Char.isUpper with
      | r :: rs, a :: rest2 =>
        if a.isLower then
          (c :: (r :: rs).dropLast) ++ '-' :: (r :: rs).getLastD c :: a :: kebabPass2Go fuel rest2
        else
          c :: kebabPass2Go fuel rest
      | _, _ => c :: kebabPass2Go fuel rest
    else
      c :: kebabPass2Go fuel rest

/-- The whole second regex pass. -/
def kebabPass2 (l : List Char) : List Char := kebabPass2Go l.length l

/-- `camelToKebabCase` from src/util/string.ts: the two regex passes followed
by `toLowerCase()` (ASCII, matching the source's character classes). -/
def camelToKebabCase (s : String) : String :=
  String.mk ((kebabPass2 (kebabPass1 s.data)).map Char.toLower)

example : camelToKebabCase "getUserID" = "get-user-id" := by decide
example : camelToKebabCase "HTTPServer" = "http-server" := by decide
example : camelToKebabCase "v2Parser" = "v2-parser" := by decide
example : camelToKebabCase "getUSERid" = "get-use-rid" := by decide

/-- The dot-joined kebab route key `segs.map(camelToKebabCase).join('.')`,
used identically by the client transport (URL tail), the client middleware
map, and the documented flattened server table. -/
def routeKey (segs : List String) : String :=
  String.intercalate "." (segs.map camelToKebabCase)

example : routeKey ["users", "getProfile"] = "users.get-profile" := by decide

/-- `needle.isPrefixOf hay` for character lists (used to model
`String.prototype.includes`). -/
def listStartsWith : List Char → List Char → Bool
  | [], _ => true
  | _ :: _, [] => false
  | a :: as, b :: bs => a == b && listStartsWith as bs

/-- JS `hay.includes(needle)`: some suffix of `hay` starts with `needle`. -/
def listIncludes (needle hay : List Char) : Bool :=
  match hay with
  | [] => listStartsWith needle []
  | _ :: t => listStartsWith needle hay || listIncludes needle t

/-- `hay.includes(needle)` on strings. -/
def strIncludes (hay needle : String) : Bool :=
  listIncludes needle.data hay.data

example : strIncludes "multipart/form-data; boundary=x" "multipart/form-data" = true := by decide
example : strIncludes "text/plain" "application/json" = false := by decide

/-- JS `str.split(sep)` for a single-character separator, on character
lists: `"a/b" ↦ ["a","b"]`, `"" ↦ [""]`, adjacent separators produce empty
segments. -/
def splitCharsOn (sep : Char) : List Char → List (List Char)
  | [] => [[]]
  | c :: t =>
    if c = sep then [] :: splitCharsOn sep t
    else
      match splitCharsOn sep t with
      | h :: rest => (c :: h) :: rest
      | [] => [[c]]

/-- `params.path.split("/")`. -/
def jsSplitSlash (s : String) : List String :=
  (splitCharsOn '/' s.data).map String.mk

example : jsSplitSlash "users/getProfile" = ["users", "getProfile"] := by decide
example : jsSplitSlash "users.get-profile" = ["users.get-profile"] := by decide

/-- JS `str.endsWith(t)`. -/
def strEndsWith (s t : String) : Bool :=
  listStartsWith t.data.reverse s.data.reverse

example : strEndsWith "files[]" "[]" = true := by decide
example : strEndsWith "files" "[]" = false := by decide

/-! ## JS value model

Argument objects, bodies and results exchanged by the framework.  `vFile`
models a DOM `File` handle (identified by its name); `vObj` models a plain
object as an insertion-ordered field list (JS objects have unique keys). -/

inductive Val where
  | vNull
  | vBool (b : Bool)
  | vNum (n : Int)
  | vStr (s : String)
  | vArr (elems : List Val)
  | vObj (fields : List (String × Val))
  | vFile (name : String)

/-- JS truthiness of the values a codec can return (`unpack(buffer) || {}` and
`JSON.parse(text) || {}` replace falsy results by `{}`). -/
def Val.isFalsy : Val → Bool
  | .vNull => true
  | .vBool b => !b
  | .vNum n => n == 0
  | .vStr s => s == ""
  | _ => false

/-- `Object.entries(v)` for the values that can occur as parsed args
(`new Map(Object.entries(args || {}))`): fields of an object, nothing for
non-objects. -/
def Val.entries : Val → List (String × Val)
  | .vObj fields => fields
  | _ => []

/-- JS object update `o[key] = value`: an existing key keeps its position and
gets the new value, a fresh key is appended. -/
def objSet (o : List (String × Val)) (k : String) (v : Val) : List (String × Val) :=
  match o with
  | [] => [(k, v)]
  | (a, b) :: t => if a = k then (a, v) :: t else (a, b) :: objSet t k v

/-! ## Pipeline executor (src/util/pipeline.ts)

A middleware is `(state, next) → result`.  The shared mutable state object is
rendered purely by letting `next` take (and the results carry) the current
state; a rejected promise becomes the `err` constructor carrying a `JsError`.
The file contains two implementations of `pipeline`; both walk the middleware
array left to right (the first via an index into the array, the second by
`shift()`ing the array), so both are embedded as recursion on the remaining
suffix, differing only in the error thrown when the chain is exhausted. -/

/-- A thrown JS `Error`.  `zodIssues = some l` marks a `z.ZodError` carrying
the issue list `l` (the dispatcher tests `e instanceof z.ZodError`). -/
structure JsError where
  message : String
  zodIssues : Option (List String) := none
deriving DecidableEq

/-- Outcome of running a middleware chain: a fulfilled result or a rejection,
together with the state object as left by the run. -/
inductive PRes (σ ρ : Type) where
  | ok (r : ρ) (s : σ)
  | err (e : JsError) (s : σ)

/-- Middleware type from src/util/pipeline.ts: `(state, next) => result`. -/
def Mw (σ ρ : Type) : Type := σ → (σ → PRes σ ρ) → PRes σ ρ

/-- The error thrown by the first implementation when `middlewares[index]` is
undefined. -/
def pipelineExhaustedError : JsError :=
  { message := "Pipeline exhausted. Make sure the last middleware in the chain returns a result without calling next()." }

/-- First implementation, `execute(state, middlewares, index)`: looks up
`middlewares[index]`; if missing it throws the exhaustion error, otherwise it
invokes the middleware with `next = () => execute(state, middlewares, index+1)`.
The index into the array is rendered as the remaining suffix. -/
def executePipe (state : σ) : List (Mw σ ρ) → PRes σ ρ
  | [] => .err pipelineExhaustedError state
  | m :: rest => m state (fun s => executePipe s rest)

/-- First implementation's entry point `pipeline(state, ...middlewares)`. -/
def pipelineRun (state : σ) (middlewares : List (Mw σ ρ)) : PRes σ ρ :=
  executePipe state middlewares

/-- Second implementation: `middlewares.shift()`; when the array is empty it
throws `Error("Middleware not found!")`, otherwise it invokes the head with
`next = () => pipeline(state, ...middlewares)` on the shifted array. -/
def pipelineShift (state : σ) : List (Mw σ ρ) → PRes σ ρ
  | [] => .err { message := "Middleware not found!" } state
  | m :: rest => m state (fun s => pipelineShift s rest)

/-! ## Headers (used on both sides)

A `Headers` object stores lowercased names; `set` replaces an existing entry
in place or appends a fresh one, `get` returns the entry's value. -/

/-- ASCII lowercasing of a header name (structural, so that it evaluates;
`Headers` names are ASCII). -/
def strLower (s : String) : String := String.mk (s.data.map Char.toLower)

/-- `headers.set(k, v)`. -/
def hset (h : List (String × String)) (k v : String) : List (String × String) :=
  match h with
  | [] => [(strLower k, v)]
  | (a, b) :: t => if a = strLower k then (a, v) :: t else (a, b) :: hset t k v

/-- `headers.get(k)`: value of the first entry whose (lowercased) name
matches; `none` models JS `null`. -/
def hget : List (String × String) → String → Option String
  | [], _ => none
  | (a, b) :: t, k => if a = strLower k then some b else hget t k

theorem hget_hset_lower (h : List (String × String)) (k v k' : String)
    (heq : strLower k' = strLower k) : hget (hset h k v) k' = some v := by
  induction h with
  | nil => simp [hset, hget, heq]
  | cons p t ih =>
    obtain ⟨a, b⟩ := p
    by_cases hak : a = strLower k
    · simp [hset, hget, hak, heq]
    · simp [hset, hget, hak, heq, ih]

theorem hget_hset_self (h : List (String × String)) (k v : String) :
    hget (hset h k v) k = some v :=
  hget_hset_lower h k v k rfl

theorem hget_hset_other (h : List (String × String)) (k v k' : String)
    (hne : strLower k' ≠ strLower k) : hget (hset h k v) k' = hget h k' := by
  induction h with
  | nil => simp [hset, hget, Ne.symm hne]
  | cons p t ih =>
    obtain ⟨a, b⟩ := p
    by_cases hak : a = strLower k
    · subst hak
      simp [hset, hget, Ne.symm hne]
    · simp only [hset, if_neg hak, hget]
      by_cases hak' : a = strLower k' <;> simp [hak', ih]

/-! ## Server data model (src/server/*)

The server dispatcher in src/server/create-handler.ts as present in the
repository: raw-segment route traversal (`findRpcMethodDescriptor`), the
method and rpc-type gates, per-type argument parsing, the middleware pipeline
with the validating terminal stage, and response serialization.  Bodies and
codecs are symbolic: `Body.msgpackOf v` stands for bytes that MessagePack
decodes to `v`, `Body.jsonTextOf v` for text that JSON-parses to `v`,
`Body.malformed` for input neither codec accepts. -/

inductive RpcType where
  | query
  | command
  | get
deriving DecidableEq

/-- The string the source stores in a descriptor's `rpcType` field. -/
def rtStr : RpcType → String
  | .query => "query"
  | .command => "command"
  | .get => "get"

/-- A request or blob body, with the symmetric codecs represented
symbolically. -/
inductive Body where
  | empty
  | msgpackOf (v : Val)
  | jsonTextOf (v : Val)
  | malformed

/-- A `FormData` entry value: a plain string field or a file/blob part
(carrying its MIME type and bytes). -/
inductive FormVal where
  | fstr (s : String)
  | ffile (name : String) (mimeType : String) (content : Body)

/-- The incoming request together with the pieces of the host event the
handler reads.  `queryArgsBody` is the decoded content of a present,
non-empty `args` search parameter (the base64url layer is elided, the codec
being opaque); `form` is `some entries` when the body parses as form data. -/
structure Req where
  method : String
  pathParam : Option String
  headers : List (String × String)
  searchParams : List (String × String) := []
  queryArgsBody : Option Body := none
  body : Body := .empty
  form : Option (List (String × FormVal)) := none

/-- The mutable per-request `ServerContext`: parsed args map, mutable
response headers, status (default 200), cache directive (default 0), and the
elapsed-time reading used for the timing header (opaque real time). -/
structure CtxState where
  args : List (String × Val)
  respHeaders : List (String × String) := []
  status : Int := 200
  cache : Int := 0
  elapsed : Int := 0

/-- `ctx.cache.set(seconds)`: clamps to `Math.max(0, Math.floor(seconds))`. -/
def cacheSet (n : Int) : Int := max 0 n

/-- Server middleware over the request context. -/
abbrev SMw := Mw CtxState Val

/-- An endpoint descriptor: rpc type, optional zod schema (a `parse` that
either returns the value or raises an issue list), and the user
implementation (which may read and mutate the context, or throw). -/
structure Descriptor where
  rpcType : RpcType
  zodSchema : Option (Val → Except (List String) Val) := none
  implementation : Val → CtxState → PRes CtxState Val

/-- A node of the API definition: a nested mapping or an endpoint
descriptor, each optionally carrying the out-of-band (symbol-keyed, hence
non-enumerable) middleware list. -/
inductive ApiNode where
  | branch (mws : List SMw) (children : List (String × ApiNode))
  | leaf (mws : List SMw) (d : Descriptor)

/-- `getMiddlewares(node)`: the symbol slot's list (empty when absent). -/
def ApiNode.nodeMws : ApiNode → List SMw
  | .branch mws _ => mws
  | .leaf mws _ => mws

/-- `segment in current && current[segment]` for the traversal: descriptors
have no child nodes. -/
def ApiNode.child : ApiNode → String → Option ApiNode
  | .branch _ children, s => (children.find? (fun p => p.1 = s)).map (·.2)
  | .leaf _ _, _ => none

/-- The loop body of `findRpcMethodDescriptor`: walk the raw path segments
through the definition, accumulating each visited node's middleware list; at
the last segment succeed only on a node with an `rpcType` field. -/
def findRpcGo : List String → ApiNode → List SMw → Option (Descriptor × List SMw)
  | [], _, _ => none
  | [s], cur, acc =>
    match cur.child s with
    | some (.leaf lm d) => some (d, acc ++ lm)
    | some (.branch _ _) => none
    | none => none
  | s :: s' :: rest, cur, acc =>
    match cur.child s with
    | some c => findRpcGo (s' :: rest) c (acc ++ c.nodeMws)
    | none => none

/-- `findRpcMethodDescriptor(pathSegments, apiDefinition)` from the
dispatcher: starts from the definition's own middleware list. -/
def findRpcMethodDescriptor (segs : List String) (api : ApiNode) :
    Option (Descriptor × List SMw) :=
  findRpcGo segs api api.nodeMws

/-- A parse failure: `ParseError` instances become 400 with their message,
anything else becomes 500. -/
inductive ParseFail where
  | parseError (msg : String)
  | unexpected

/-- `parseGet(url)`: every search parameter as a plain string, later
occurrences overwriting earlier ones. -/
def parseGetArgs (searchParams : List (String × String)) : Val :=
  .vObj (searchParams.foldl (fun o p => objSet o p.1 (.vStr p.2)) [])

/-- `parseQuery(url)`: absent (or empty, hence falsy) `args` parameter gives
`{}`; otherwise base64url-decode and unpack, any failure raising
`Invalid msgpackr body`. -/
def parseQueryArgs : Option Body → Except ParseFail Val
  | none => .ok (.vObj [])
  | some (.msgpackOf v) => .ok v
  | some _ => .error (.parseError "Invalid msgpackr body")

/-- `parseCommandMsgpackr(request)`: empty body gives `{}`; otherwise unpack
(falsy result replaced by `{}`), failure raising `Invalid msgpackr body`. -/
def parseCommandMsgpackr : Body → Except ParseFail Val
  | .empty => .ok (.vObj [])
  | .msgpackOf v => .ok (if v.isFalsy then .vObj [] else v)
  | _ => .error (.parseError "Invalid msgpackr body")

/-- `parseCommandJson(request)`: empty text gives `{}`; otherwise JSON-parse
(falsy result replaced by `{}`), failure raising `Invalid JSON body`. -/
def parseCommandJson : Body → Except ParseFail Val
  | .empty => .ok (.vObj [])
  | .jsonTextOf v => .ok (if v.isFalsy then .vObj [] else v)
  | _ => .error (.parseError "Invalid JSON body")

/-- `formData.get(k)`: first entry for the key. -/
def formFirst (entries : List (String × FormVal)) (k : String) : Option FormVal :=
  (entries.find? (fun p => p.1 = k)).map (·.2)

/-- `formData.getAll(k)`: all entries for the key, in order. -/
def formAll (entries : List (String × FormVal)) (k : String) : List FormVal :=
  (entries.filter (fun p => p.1 = k)).map (·.2)

/-- A `FormData` value as it lands in args: strings stay strings, file parts
stay file handles. -/
def formValToVal : FormVal → Val
  | .fstr s => .vStr s
  | .ffile n _ _ => .vFile n

/-- Distinct keys in order of first occurrence (the `Set` the multipart
parser builds from `formData.forEach`). -/
def dedupKeysGo (seen : List String) : List String → List String
  | [] => []
  | k :: t => if seen.contains k then dedupKeysGo seen t else k :: dedupKeysGo (k :: seen) t

/-- Entry point for `dedupKeysGo` with nothing seen yet. -/
def dedupKeys (l : List String) : List String := dedupKeysGo [] l

/-- The multipart `args` blob: dispatch on its MIME subtype, `400` on other
types or undecodable content; a non-blob (plain string) `args` entry is
ignored, as is an absent one. -/
def parseArgsBlob (entries : List (String × FormVal)) : Except ParseFail Val :=
  match formFirst entries "args" with
  | some (.ffile _ mimeType content) =>
    match mimeType with
    | "application/json" =>
      match content with
      | .jsonTextOf v => .ok (if v.isFalsy then .vObj [] else v)
      | _ => .error (.parseError "Invalid JSON in args blob")
    | "application/msgpack" =>
      match content with
      | .msgpackOf v => .ok (if v.isFalsy then .vObj [] else v)
      | _ => .error (.parseError "Invalid msgpack in args blob")
    | other => .error (.parseError ("Unsupported args type: " ++ other))
  | _ => .ok (.vObj [])

/-- The loop over the remaining form keys: `"foo[]"` collects all values for
the key under `"foo"` as an ordered list, any other key takes its first
occurrence; `"args"` is skipped. -/
def applyFormEntries (entries : List (String × FormVal)) (base : List (String × Val)) :
    List (String × Val) :=
  (dedupKeys (entries.map Prod.fst)).foldl
    (fun o k =>
      if k = "args" then o
      else if strEndsWith k "[]" then
        objSet o (k.dropRight 2) (.vArr ((formAll entries k).map formValToVal))
      else
        match formFirst entries k with
        | some fv => objSet o k (formValToVal fv)
        | none => o)
    base

/-- `parseCommandMultipartFormData(request)`: `request.formData()` failing
(body is not form data) is an unexpected error (500); otherwise parse the
`args` blob and augment it with the remaining entries. -/
def parseCommandMultipart : Option (List (String × FormVal)) → Except ParseFail Val
  | none => .error .unexpected
  | some entries =>
    match parseArgsBlob entries with
    | .error e => .error e
    | .ok base => .ok (.vObj (applyFormEntries entries base.entries))

/-- The argument-parsing switch of the dispatcher.  For `command` it branches
on the `Content-Type` header (`|| ""`): multipart, then JSON, and otherwise —
any other or absent content type — the MessagePack parser. -/
def parseArgs (rt : RpcType) (req : Req) : Except ParseFail Val :=
  match rt with
  | .get => .ok (parseGetArgs req.searchParams)
  | .query => parseQueryArgs req.queryArgsBody
  | .command =>
    let ct := (hget req.headers "Content-Type").getD ""
    if strIncludes ct "multipart/form-data" then parseCommandMultipart req.form
    else if strIncludes ct "application/json" then parseCommandJson req.body
    else parseCommandMsgpackr req.body

/-- `acceptedRequests.includes(method + "." + rpcType)` with
`acceptedRequests = ["GET.query", "GET.get", "POST.command"]`. -/
def acceptedRequest (method : String) (rt : RpcType) : Bool :=
  ["GET.query", "GET.get", "POST.command"].contains (method ++ "." ++ rtStr rt)

/-- `new Map(Object.entries(args || {}))` in the `ServerContext`
constructor. -/
def ctxArgsOf (v : Val) : List (String × Val) :=
  if v.isFalsy then [] else v.entries

/-- The context handed to the pipeline: parsed args, empty response headers,
status 200, cache 0. -/
def initCtx (a : Val) : CtxState := { args := ctxArgsOf a }

/-- The terminal pipeline stage the dispatcher appends: read `ctx.getArgs()`,
run the schema's `parse` when one is present (its failure propagating as a
`ZodError`), then call the implementation. -/
def terminalStage (d : Descriptor) : SMw := fun s _next =>
  let args := Val.vObj s.args
  match d.zodSchema with
  | some sch =>
    match sch args with
    | .error issues => .err { message := "ZodError", zodIssues := some issues } s
    | .ok parsed => d.implementation parsed s
  | none => d.implementation args s

/-- A serialized response body: plain text (the bare error responses),
`JSON.stringify(result)`, or `packr.pack(result)`. -/
inductive RespBody where
  | text (s : String)
  | jsonOf (v : Val)
  | packOf (v : Val)

/-- The HTTP response the handler returns. -/
structure HttpResponse where
  status : Int
  headers : List (String × String)
  body : RespBody

/-- A bare `new Response(message, {status})`. -/
def mkTextResponse (status : Int) (msg : String) : HttpResponse :=
  { status := status, headers := [], body := .text msg }

/-- `Accept` content negotiation in `makeResponse`:
`headers.get("Accept")?.includes("application/json")` (absent header is
falsy). -/
def prefersJsonOf (req : Req) : Bool :=
  match hget req.headers "Accept" with
  | some a => strIncludes a "application/json"
  | none => false

/-- `makeResponse(result, ctx)`: timing header, `Content-Type` per `Accept`,
`Cache-Control: public, max-age=n` only on GET with a non-zero cache
directive, body serialized per `Accept`, status from the context. -/
def makeResponse (result : Val) (s : CtxState) (req : Req) : HttpResponse :=
  let prefersJson := prefersJsonOf req
  let h1 := hset s.respHeaders "X-Tango-Execution-Time" (toString s.elapsed)
  let h2 := hset h1 "Content-Type"
    (if prefersJson then "application/json" else "application/msgpack")
  let h3 :=
    if req.method = "GET" && s.cache != 0 then
      hset h2 "Cache-Control" ("public, max-age=" ++ toString s.cache)
    else h2
  { status := s.status
    headers := h3
    body := if prefersJson then .jsonOf result else .packOf result }

/-- The dispatcher's `ZodError` catch branch applied to the context:
`X-Tango-Validation-Error: true`, `cache.set(0)`, `status.set(422)`. -/
def zodFailureCtx (s : CtxState) : CtxState :=
  { s with
    respHeaders := hset s.respHeaders "X-Tango-Validation-Error" "true"
    cache := cacheSet 0
    status := 422 }

/-- The request handler `createHandler(apiDefinition)` builds, end to end:
method gate, route lookup over `params.path.split("/")`, method/rpc
compatibility, argument parsing, pipeline execution with the validating
terminal, and response serialization with the `ZodError` and generic catch
branches. -/
def createHandlerRun (api : ApiNode) (req : Req) : HttpResponse :=
  if !(["GET", "POST"].contains req.method) then
    mkTextResponse 405 "Method not allowed"
  else
    match req.pathParam with
    | none => mkTextResponse 404 "RPC method not found"
    | some p =>
      if p = "" then mkTextResponse 404 "RPC method not found"
      else
        match findRpcMethodDescriptor (jsSplitSlash p) api with
        | none => mkTextResponse 404 "RPC method not found"
        | some (d, mws) =>
          if !acceptedRequest req.method d.rpcType then
            mkTextResponse 405
              ("RPC type " ++ rtStr d.rpcType ++ " not allowed for " ++ req.method ++ " requests")
          else
            match parseArgs d.rpcType req with
            | .error (.parseError msg) => mkTextResponse 400 msg
            | .error .unexpected => mkTextResponse 500 "Internal server error"
            | .ok a =>
              match pipelineRun (initCtx a) (mws ++ [terminalStage d]) with
              | .ok r s => makeResponse r s req
              | .err e s =>
                match e.zodIssues with
                | some issues =>
                  makeResponse (.vArr (issues.map .vStr)) (zodFailureCtx s) req
                | none => mkTextResponse 500 "Internal server error"

/-! ## Client middleware map and chain (src/client/create-client.ts)

`createClient` keeps a `Map<string, ClientMiddleware[]>` shared by the setter
proxy (registration) and the call proxy (chain assembly).  The entries are
modelled as an insertion-ordered association list; the middleware type is an
arbitrary `μ` (chain construction never inspects the functions). -/

/-- `map.get(k)` on the middleware `Map`. -/
def mapGet (m : List (String × List μ)) (k : String) : Option (List μ) :=
  (m.find? (fun p => p.1 = k)).map (·.2)

/-- `map.set(k, v)`: replace an existing key's value in place, append a fresh
key. -/
def mapSet (m : List (String × List μ)) (k : String) (v : List μ) :
    List (String × List μ) :=
  match m with
  | [] => [(k, v)]
  | (a, b) :: t => if a = k then (a, v) :: t else (a, b) :: mapSet t k v

/-- A middleware assignment's right-hand side: a single middleware or an
array (`Array.isArray(value) ? value : [value]`). -/
def assignList : μ ⊕ List μ → List μ
  | .inl one => [one]
  | .inr many => many

/-- The key a setter-proxy assignment targets: `$` registers at the current
path, any other property name at `path ++ [prop]`; the key is the kebab
dot-joined path (so the global `cfg.$` lands at `""`). -/
def assignKey (path : List String) (prop : String) : String :=
  routeKey (if prop = "$" then path else path ++ [prop])

/-- The setter proxy's `set` trap: concatenate onto whatever list the key
already holds. -/
def setterAssign (m : List (String × List μ)) (path : List String) (prop : String)
    (value : μ ⊕ List μ) : List (String × List μ) :=
  let key := assignKey path prop
  let existing := (mapGet m key).getD []
  mapSet m key (existing ++ assignList value)

/-- Chain assembly in the call proxy: the list under `""` when present, then
for each `i` from 1 to `path.length` the list under
`path.slice(0, i).map(camelToKebabCase).join(".")` when present. -/
def buildChain (m : List (String × List μ)) (path : List String) : List μ :=
  ((mapGet m "").getD []) ++
    (((List.range path.length).map
      (fun i => (mapGet m (routeKey (path.take (i + 1)))).getD [])).flatten)

/-- The full list handed to `pipeline(ctx, ...middlewares, terminal)`: the
assembled chain followed by the terminal transport stage. -/
def executedChain (m : List (String × List μ)) (path : List String) (terminal : μ) :
    List μ :=
  buildChain m path ++ [terminal]

/-- The chain in the words of the specification: the global list, then the
list of each non-empty prefix of the path in ascending depth order, then the
terminal stage.  (Comparison definition for the refinement proof; prefixes
come from `List.inits`.) -/
def specChain (m : List (String × List μ)) (path : List String) (terminal : μ) :
    List μ :=
  ((mapGet m "").getD []) ++
    ((path.inits.filter (fun pre => !pre.isEmpty)).map
      (fun pre => (mapGet m (routeKey pre)).getD [])).flatten ++ [terminal]

theorem mapGet_mapSet_self (m : List (String × List μ)) (k : String) (v : List μ) :
    mapGet (mapSet m k v) k = some v := by
  induction m with
  | nil => simp [mapSet, mapGet]
  | cons p t ih =>
    obtain ⟨a, b⟩ := p
    by_cases hak : a = k
    · simp [mapSet, mapGet, hak]
    · simp [mapSet, mapGet, hak] at ih ⊢
      simpa [mapGet] using ih

theorem mapGet_mapSet_other (m : List (String × List μ)) (k : String) (v : List μ)
    (k' : String) (hne : k' ≠ k) : mapGet (mapSet m k v) k' = mapGet m k' := by
  induction m with
  | nil => simp [mapSet, mapGet, Ne.symm hne]
  | cons p t ih =>
    obtain ⟨a, b⟩ := p
    by_cases hak : a = k
    · subst hak
      simp [mapSet, mapGet, Ne.symm hne]
    · simp only [mapSet, if_neg hak, mapGet, List.find?]
      by_cases hak' : a = k' <;> simp [mapGet, hak, hak'] at ih ⊢ <;> simpa [mapGet] using ih

theorem inits_eq_map_take (l : List α) :
    l.inits = (List.range (l.length + 1)).map (fun i => l.take i) := by
  induction l with
  | nil => simp
  | cons a t ih =>
    rw [List.inits_cons, List.length_cons, List.range_succ_eq_map]
    simp only [List.map_cons, List.take_zero, List.map_map]
    congr 1
    rw [ih, List.map_map]
    rfl

theorem initsNonempty_eq (l : List α) :
    l.inits.filter (fun pre => !pre.isEmpty) =
      (List.range l.length).map (fun i => l.take (i + 1)) := by
  cases l with
  | nil => simp
  | cons a t =>
    rw [List.inits_cons]
    have h1 : (List.filter (fun pre => !pre.isEmpty) (List.map (List.cons a) t.inits))
        = List.map (List.cons a) t.inits := by
      apply List.filter_eq_self.mpr
      intro x hx
      obtain ⟨y, _, rfl⟩ := List.mem_map.mp hx
      simp
    simp only [List.filter_cons, List.isEmpty_nil, Bool.not_true, List.length_cons, h1]
    rw [inits_eq_map_take, List.map_map, List.range_succ_eq_map, List.map_cons, List.map_map]
    simp [Function.comp_def, List.take_succ_cons]

/-! ## Client context (src/client/client-context.ts) and transport
(src/client/create-client.ts)

`Headers` objects are mutable and shared by reference, so they live in a
small heap: a reference is a number, the heap maps references to header
lists.  The `ClientContext` constructor adopts `options.headers` when given
(creating a fresh `Headers` otherwise) and then sets
`accept: application/msgpack` on that very object. -/

/-- The heap of live `Headers` objects. -/
def HHeap : Type := Nat → List (String × String)

/-- Overwrite one heap cell. -/
def hupdate (h : HHeap) (r : Nat) (m : List (String × String)) : HHeap :=
  fun x => if x = r then m else h x

/-- The call options the context constructor reads (`headers?: Headers` is a
reference into the heap). -/
structure COpts where
  headers : Option Nat := none

/-- The per-call client context (the fields these claims touch). -/
structure CCtx where
  path : List String
  args : List (String × Val)
  rpcType : RpcType
  headersRef : Nat

/-- The `ClientContext` constructor:
`_headers = options.headers ? options.headers : new Headers()` followed by
`_headers.set("accept", "application/msgpack")`; `ctx.request.headers`
returns that same object.  `fresh` is the address a newly allocated
`Headers` would get. -/
def mkClientContext (path : List String) (args : List (String × Val)) (rt : RpcType)
    (opts : COpts) (heap : HHeap) (fresh : Nat) : CCtx × HHeap :=
  let r := opts.headers.getD fresh
  let heap1 := if opts.headers.isSome then heap else hupdate heap fresh []
  let heap2 := hupdate heap1 r (hset (heap1 r) "accept" "application/msgpack")
  ({ path := path, args := args, rpcType := rt, headersRef := r }, heap2)

/-- `value instanceof File`. -/
def isFileVal : Val → Bool
  | .vFile _ => true
  | _ => false

/-- The upload test in `call`: a `File`, or a non-empty array whose every
element is a `File`
(`value instanceof File || (Array.isArray(value) && value.length > 0 &&
value.every(v => v instanceof File))`). -/
def isUploadValue (v : Val) : Bool :=
  isFileVal v ||
    (match v with
     | .vArr elems => decide (elems.length > 0) && elems.all isFileVal
     | _ => false)

/-- The upload-extraction scan of a `command` call: matching entries move
from args to the uploads map (first component: remaining args, second:
uploads); `query`/`get` calls are not scanned. -/
def extractUploads (rt : RpcType) (args : List (String × Val)) :
    List (String × Val) × List (String × Val) :=
  if rt = .command then
    (args.filter (fun p => !isUploadValue p.2), args.filter (fun p => isUploadValue p.2))
  else (args, [])

/-- The URL the transport builds:
`baseUrl + "/" + path.map(camelToKebabCase).join(".")`. -/
def clientUrl (baseUrl : String) (path : List String) : String :=
  baseUrl ++ "/" ++ routeKey path

/-- The request-shape switch of the transport. -/
inductive ReqKind where
  | GET
  | QUERY
  | UPLOAD
  | COMMAND
deriving DecidableEq

/-- `isGet ? "GET" : isQuery ? "QUERY" : hasUploads ? "UPLOAD" : "COMMAND"`. -/
def reqKindOf (rt : RpcType) (hasUploads : Bool) : ReqKind :=
  match rt with
  | .get => .GET
  | .query => .QUERY
  | .command => if hasUploads then .UPLOAD else .COMMAND

/-- The transport's only write to the request `Headers` object: the
`COMMAND` branch (a command without uploads) sets
`Content-Type: application/msgpack` on `ctx.request.headers`.  The `GET`,
`QUERY` and `UPLOAD` branches leave the headers alone. -/
def transportHeaderStep (ctx : CCtx) (heap : HHeap) : HHeap :=
  let uploads := (extractUploads ctx.rpcType ctx.args).2
  match reqKindOf ctx.rpcType (!uploads.isEmpty) with
  | .COMMAND =>
    hupdate heap ctx.headersRef
      (hset (heap ctx.headersRef) "Content-Type" "application/msgpack")
  | _ => heap

/-! ## Server status object (src/server/server-context.ts)

`ctx.status` couples `set`/`get` with a fixed set of nullary shortcut
methods; every operation just assigns `this._status` (the `set` method stores
its numeric argument without any validation).  `continue'` models the
source's `continue` shortcut. -/

inductive StatusShortcut where
  | continue' | switchingProtocols | processing
  | ok | created | accepted | noContent | resetContent | partialContent
  | multipleChoices | movedPermanently | found | seeOther | notModified
  | temporaryRedirect | permanentRedirect
  | badRequest | unauthorized | paymentRequired | forbidden | notFound
  | methodNotAllowed | notAcceptable | conflict | gone | lengthRequired
  | preconditionFailed | payloadTooLarge | uriTooLong | badContent
  | rangeNotSatisfiable | expectationFailed | tooManyRequests
  | serverError | notImplemented | badGateway | serviceUnavailable
  | gatewayTimeout | httpVersionNotSupported
deriving DecidableEq

/-- The code each shortcut assigns to `this._status`, copied from the
source's table. -/
def canonicalCode : StatusShortcut → Int
  | .continue' => 100
  | .switchingProtocols => 101
  | .processing => 102
  | .ok => 200
  | .created => 201
  | .accepted => 202
  | .noContent => 204
  | .resetContent => 205
  | .partialContent => 206
  | .multipleChoices => 300
  | .movedPermanently => 301
  | .found => 302
  | .seeOther => 303
  | .notModified => 304
  | .temporaryRedirect => 307
  | .permanentRedirect => 308
  | .badRequest => 400
  | .unauthorized => 401
  | .paymentRequired => 402
  | .forbidden => 403
  | .notFound => 404
  | .methodNotAllowed => 405
  | .notAcceptable => 406
  | .conflict => 409
  | .gone => 410
  | .lengthRequired => 411
  | .preconditionFailed => 412
  | .payloadTooLarge => 413
  | .uriTooLong => 414
  | .badContent => 415
  | .rangeNotSatisfiable => 416
  | .expectationFailed => 417
  | .tooManyRequests => 429
  | .serverError => 500
  | .notImplemented => 501
  | .badGateway => 502
  | .serviceUnavailable => 503
  | .gatewayTimeout => 504
  | .httpVersionNotSupported => 505

/-- An operation on `ctx.status`: `set(n)` with an arbitrary numeric input,
or one of the named shortcuts. -/
inductive StatusOp where
  | set (n : Int)
  | short (sc : StatusShortcut)

/-- The new `_status` after one operation (every operation is a plain
assignment to `this._status`). -/
def applyStatusOp (current : Int) (op : StatusOp) : Int :=
  match op with
  | .set n => n
  | .short sc => canonicalCode sc

/-- `_status` after a sequence of operations, starting from the constructor
default `200`. -/
def runStatusOps (ops : List StatusOp) : Int :=
  ops.foldl applyStatusOp 200

/-- A valid HTTP status code: member of a registered class, `100..599`. -/
def validHttpStatus (n : Int) : Bool := 100 ≤ n && n ≤ 599

/-! ## Claims -/

/-- C4 counterexample: on input `getUSERid` the two passes produce
`get-USE-Rid` before lowercasing — the greedy `[A-Z]+` backs off only one
letter, so the hyphen lands before the `R`, not after it — refuting the
claimed intermediate `get-USER-id` (and final `get-user-id`). -/
theorem C4_kebab_counterexample :
    kebabPass2 (kebabPass1 "getUSERid".data) = "get-USE-Rid".data ∧
    kebabPass2 (kebabPass1 "getUSERid".data) ≠ "get-USER-id".data ∧
    camelToKebabCase "getUSERid" = "get-use-rid" ∧
    camelToKebabCase "getUSERid" ≠ "get-user-id" := by
  refine ⟨by decide, by decide, by decide, by decide⟩

/-- C4 (amended): the kebab normalizer applies exactly the two insertion
passes and then lowercases the whole string; `getUserID ↦ get-user-id`,
`HTTPServer ↦ http-server` and `v2Parser ↦ v2-parser` hold, while
`getUSERid` becomes `get-USE-Rid` before lowercasing (hence `get-use-rid`,
not `get-user-id`). -/
theorem C4_kebab_two_passes :
    (∀ s : String,
        camelToKebabCase s = String.mk ((kebabPass2 (kebabPass1 s.data)).map Char.toLower)) ∧
    camelToKebabCase "getUserID" = "get-user-id" ∧
    camelToKebabCase "HTTPServer" = "http-server" ∧
    camelToKebabCase "v2Parser" = "v2-parser" ∧
    kebabPass2 (kebabPass1 "getUSERid".data) = "get-USE-Rid".data ∧
    camelToKebabCase "getUSERid" = "get-use-rid" := by
  exact ⟨fun _ => rfl, by decide, by decide, by decide, by decide, by decide⟩

/-- `isFileVal` decides exactly "is a file handle". -/
theorem isFileVal_iff (v : Val) : isFileVal v = true ↔ ∃ f, v = .vFile f := by
  cases v <;> simp [isFileVal]

/-- The property the specification words describe for an upload argument:
a single file handle, or a non-empty list of file handles only. -/
def uploadSpec (v : Val) : Prop :=
  (∃ f, v = .vFile f) ∨
    (∃ elems, v = .vArr elems ∧ elems ≠ [] ∧ ∀ x ∈ elems, ∃ f, x = .vFile f)

/-- `isUploadValue` from the transport decides exactly `uploadSpec`. -/
theorem isUploadValue_iff (v : Val) : isUploadValue v = true ↔ uploadSpec v := by
  cases v with
  | vArr elems =>
    simp only [isUploadValue, isFileVal, Bool.or_eq_true, Bool.and_eq_true, decide_eq_true_eq,
      uploadSpec, List.all_eq_true]
    constructor
    · rintro (h | ⟨hlen, hall⟩)
      · cases h
      · exact .inr ⟨elems, rfl, List.ne_nil_of_length_pos hlen,
          fun x hx => (isFileVal_iff x).mp (hall x hx)⟩
    · rintro (⟨f, h⟩ | ⟨elems', heq, hne, hall⟩)
      · cases h
      · injection heq with h2
        subst h2
        exact .inr ⟨List.length_pos.mpr hne,
          fun x hx => (isFileVal_iff x).mpr (hall x hx)⟩
  | vFile f => simp [isUploadValue, isFileVal, uploadSpec]
  | vNull => simp [isUploadValue, isFileVal, uploadSpec]
  | vBool b => simp [isUploadValue, isFileVal, uploadSpec]
  | vNum n => simp [isUploadValue, isFileVal, uploadSpec]
  | vStr s => simp [isUploadValue, isFileVal, uploadSpec]
  | vObj fields => simp [isUploadValue, isFileVal, uploadSpec]

/-- C7: in a command call an argument entry lands in the uploads map exactly
when its value is a single file handle or a non-empty list of file handles
only, and stays in args exactly otherwise (so mixed lists and the empty list
stay in args). -/
theorem C7_upload_extraction (args : List (String × Val)) (k : String) (v : Val) :
    ((k, v) ∈ (extractUploads .command args).2 ↔ ((k, v) ∈ args ∧ uploadSpec v)) ∧
    ((k, v) ∈ (extractUploads .command args).1 ↔ ((k, v) ∈ args ∧ ¬uploadSpec v)) := by
  constructor
  · rw [show (extractUploads .command args).2
        = args.filter (fun p => isUploadValue p.2) from rfl]
    rw [List.mem_filter]
    exact and_congr_right fun _ => isUploadValue_iff v
  · rw [show (extractUploads .command args).1
        = args.filter (fun p => !isUploadValue p.2) from rfl]
    rw [List.mem_filter]
    refine and_congr_right fun _ => ?_
    rw [Bool.not_eq_true', ← Bool.not_eq_true, not_iff_not]
    exact isUploadValue_iff v

/-- A middleware that calls `next()` and returns its value behaves as the
identity stage; running the first implementation over a chain of such
middlewares always ends in the exhaustion error, with the state passed
through unchanged. -/
theorem executePipe_allPassThrough {σ ρ : Type} (mws : List (Mw σ ρ)) :
    (∀ m ∈ mws, ∀ (s : σ) (k : σ → PRes σ ρ), m s k = k s) →
      ∀ s : σ, executePipe s mws = .err pipelineExhaustedError s := by
  induction mws with
  | nil => intro _ s; rfl
  | cons m rest ih =>
    intro h s
    rw [executePipe, h m (List.mem_cons_self m rest)]
    exact ih (fun m' hm' => h m' (List.mem_cons_of_mem m hm')) s

/-- Same for the second (shift-based) implementation, which throws
`Middleware not found!` instead. -/
theorem pipelineShift_allPassThrough {σ ρ : Type} (mws : List (Mw σ ρ)) :
    (∀ m ∈ mws, ∀ (s : σ) (k : σ → PRes σ ρ), m s k = k s) →
      ∀ s : σ, pipelineShift s mws = .err { message := "Middleware not found!" } s := by
  induction mws with
  | nil => intro _ s; rfl
  | cons m rest ih =>
    intro h s
    rw [pipelineShift, h m (List.mem_cons_self m rest)]
    exact ih (fun m' hm' => h m' (List.mem_cons_of_mem m hm')) s

/-- C8 counterexample: the second pipeline implementation, given a chain of
pass-through middlewares, rejects with `Middleware not found!` — a different
error than the PipelineExhausted message the claim asserts for both
implementations. -/
theorem C8_exhaustion_counterexample :
    pipelineShift (0 : Nat) ([fun s next => next s] : List (Mw Nat Nat)) =
      .err { message := "Middleware not found!" } 0 ∧
    ({ message := "Middleware not found!" } : JsError) ≠ pipelineExhaustedError := by
  exact ⟨rfl, by decide⟩

/-- C8 (amended): when every middleware calls `next()` and returns its value,
both pipeline implementations reject once the chain runs out — neither ever
resolves (so no `undefined` result) — but with different errors: the first
with the PipelineExhausted message telling the user to make the last stage
return without calling next, the second with `Middleware not found!`. -/
theorem C8_exhaustion_rejects {σ ρ : Type} (s : σ) (mws : List (Mw σ ρ))
    (h : ∀ m ∈ mws, ∀ (s' : σ) (k : σ → PRes σ ρ), m s' k = k s') :
    pipelineRun s mws = .err pipelineExhaustedError s ∧
    pipelineShift s mws = .err { message := "Middleware not found!" } s :=
  ⟨executePipe_allPassThrough mws h s, pipelineShift_allPassThrough mws h s⟩

/-- C8 witness: a concrete two-stage pass-through chain. -/
theorem C8_exhaustion_rejects_witness :
    pipelineRun (7 : Nat) ([fun s next => next s, fun s next => next s] : List (Mw Nat Nat)) =
      .err pipelineExhaustedError 7 ∧
    pipelineShift (7 : Nat) ([fun s next => next s, fun s next => next s] : List (Mw Nat Nat)) =
      .err { message := "Middleware not found!" } 7 :=
  C8_exhaustion_rejects 7 [fun s next => next s, fun s next => next s]
    (by intro m hm s' k; rcases hm with _ | ⟨_, hm⟩; · rfl
        rcases hm with _ | ⟨_, hm⟩; · rfl
        cases hm)

/-- Every shortcut's canonical code is a valid HTTP status. -/
theorem canonicalCode_valid (sc : StatusShortcut) :
    validHttpStatus (canonicalCode sc) = true := by
  cases sc <;> rfl

/-- Folding shortcut-only operations preserves validity of the stored
status. -/
theorem statusFold_shortcut_valid (ops : List StatusOp) :
    ∀ s : Int, validHttpStatus s = true → (∀ op ∈ ops, ∀ n : Int, op ≠ .set n) →
      validHttpStatus (ops.foldl applyStatusOp s) = true := by
  induction ops with
  | nil => intro s hs _; simpa using hs
  | cons op t ih =>
    intro s hs hops
    rw [List.foldl_cons]
    refine ih (applyStatusOp s op) ?_ (fun op' hop' => hops op' (List.mem_cons_of_mem op hop'))
    cases op with
    | set n => exact absurd rfl (hops (.set n) (List.mem_cons_self _ t) n)
    | short sc => exact canonicalCode_valid sc

/-- C9 counterexample: `ctx.status.set` stores its numeric input without any
validation, so `set(1000)` leaves `_status = 1000`, which is not a valid
HTTP status code — refuting "the stored status value is always a valid HTTP
status code" for arbitrary numeric `set` inputs. -/
theorem C9_status_counterexample :
    runStatusOps [.set 1000] = 1000 ∧ validHttpStatus 1000 = false := by
  exact ⟨rfl, rfl⟩

/-- C9 (amended): each named status shortcut sets exactly its canonical code,
every canonical code is a valid HTTP status, and any operation sequence that
uses only shortcuts keeps the stored status valid (starting from the default
200); but `status.set` stores its argument unvalidated, so validity under
arbitrary numeric `set` inputs does not hold. -/
theorem C9_status_shortcuts :
    (∀ (current : Int) (sc : StatusShortcut),
        applyStatusOp current (.short sc) = canonicalCode sc) ∧
    (∀ sc : StatusShortcut, validHttpStatus (canonicalCode sc) = true) ∧
    (∀ ops : List StatusOp, (∀ op ∈ ops, ∀ n : Int, op ≠ .set n) →
        validHttpStatus (runStatusOps ops) = true) ∧
    (canonicalCode .continue' = 100 ∧ canonicalCode .switchingProtocols = 101 ∧
     canonicalCode .processing = 102 ∧ canonicalCode .ok = 200 ∧
     canonicalCode .created = 201 ∧ canonicalCode .accepted = 202 ∧
     canonicalCode .noContent = 204 ∧ canonicalCode .resetContent = 205 ∧
     canonicalCode .partialContent = 206 ∧ canonicalCode .multipleChoices = 300 ∧
     canonicalCode .movedPermanently = 301 ∧ canonicalCode .found = 302 ∧
     canonicalCode .seeOther = 303 ∧ canonicalCode .notModified = 304 ∧
     canonicalCode .temporaryRedirect = 307 ∧ canonicalCode .permanentRedirect = 308 ∧
     canonicalCode .badRequest = 400 ∧ canonicalCode .unauthorized = 401 ∧
     canonicalCode .paymentRequired = 402 ∧ canonicalCode .forbidden = 403 ∧
     canonicalCode .notFound = 404 ∧ canonicalCode .methodNotAllowed = 405 ∧
     canonicalCode .notAcceptable = 406 ∧ canonicalCode .conflict = 409 ∧
     canonicalCode .gone = 410 ∧ canonicalCode .lengthRequired = 411 ∧
     canonicalCode .preconditionFailed = 412 ∧ canonicalCode .payloadTooLarge = 413 ∧
     canonicalCode .uriTooLong = 414 ∧ canonicalCode .badContent = 415 ∧
     canonicalCode .rangeNotSatisfiable = 416 ∧ canonicalCode .expectationFailed = 417 ∧
     canonicalCode .tooManyRequests = 429 ∧ canonicalCode .serverError = 500 ∧
     canonicalCode .notImplemented = 501 ∧ canonicalCode .badGateway = 502 ∧
     canonicalCode .serviceUnavailable = 503 ∧ canonicalCode .gatewayTimeout = 504 ∧
     canonicalCode .httpVersionNotSupported = 505) := by
  refine ⟨fun _ _ => rfl, canonicalCode_valid,
    fun ops h => statusFold_shortcut_valid ops 200 rfl h, ?_⟩
  decide

/-- C9 witness: a concrete shortcut-only sequence stays valid. -/
theorem C9_status_shortcuts_witness :
    validHttpStatus (runStatusOps [.short .unauthorized, .short .noContent]) = true :=
  C9_status_shortcuts.2.2.1 [.short .unauthorized, .short .noContent]
    (by intro op hop n h
        subst h
        rcases hop with _ | ⟨_, hop⟩
        rcases hop with _ | ⟨_, hop⟩
        cases hop)

/-- C5: the chain handed to the pipeline for a call is exactly the global
list, then each ascending kebab dot-joined prefix's list, then the terminal
transport stage; and a setter-proxy assignment appends to the list already
registered under its key, leaving every other key untouched. -/
theorem C5_middleware_chain {μ : Type} (m : List (String × List μ)) (path : List String)
    (t : μ) (p : List String) (prop : String) (v : μ ⊕ List μ) :
    executedChain m path t = specChain m path t ∧
    mapGet (setterAssign m p prop v) (assignKey p prop) =
      some ((mapGet m (assignKey p prop)).getD [] ++ assignList v) ∧
    (∀ k : String, k ≠ assignKey p prop →
        mapGet (setterAssign m p prop v) k = mapGet m k) := by
  refine ⟨?_, ?_, ?_⟩
  · rw [executedChain, specChain, buildChain, initsNonempty_eq, List.map_map]
    rfl
  · rw [setterAssign, mapGet_mapSet_self]
  · intro k hk
    rw [setterAssign, mapGet_mapSet_other _ _ _ _ hk]

/-- C5 witness: a concrete map with a global list, a group list and an
endpoint list; the executed chain is global, then group, then endpoint, then
terminal, and a further assignment appends. -/
theorem C5_middleware_chain_witness :
    executedChain [("", [10]), ("posts", [20]), ("posts.create", [30])]
        ["posts", "create"] 99 =
      specChain [("", [10]), ("posts", [20]), ("posts.create", [30])]
        ["posts", "create"] 99 ∧
    executedChain [("", [10]), ("posts", [20]), ("posts.create", [30])]
        ["posts", "create"] 99 = [10, 20, 30, 99] ∧
    mapGet (setterAssign [("", [10]), ("posts", [20]), ("posts.create", [30])]
        ["posts"] "create" (.inr [40])) (assignKey ["posts"] "create") =
      some [30, 40] ∧
    mapGet (setterAssign [("", [10]), ("posts", [20]), ("posts.create", [30])]
        ["posts"] "create" (.inr [40])) "posts" =
      mapGet [("", [10]), ("posts", [20]), ("posts.create", [30])] "posts" := by
  have h := C5_middleware_chain [("", [10]), ("posts", [20]), ("posts.create", [30])]
    ["posts", "create"] 99 ["posts"] "create" (.inr [40])
  exact ⟨h.1, by decide, h.2.1.trans (by decide), h.2.2 "posts" (by decide)⟩

/-- C3 counterexample: a caller-supplied `Headers` object with
`Accept: application/json` (stored at heap address 0) does not survive
context construction — the constructor overwrites the entry with
`application/msgpack`, and the transport (a query call performs no further
header writes) sends that value, not the caller's. -/
theorem C3_accept_counterexample :
    hget ((mkClientContext ["posts", "list"] [] .query { headers := some 0 }
        (fun _ => [("accept", "application/json")]) 1).2 0) "accept" =
      some "application/msgpack" ∧
    hget ((transportHeaderStep
        (mkClientContext ["posts", "list"] [] .query { headers := some 0 }
          (fun _ => [("accept", "application/json")]) 1).1
        (mkClientContext ["posts", "list"] [] .query { headers := some 0 }
          (fun _ => [("accept", "application/json")]) 1).2) 0) "accept" =
      some "application/msgpack" ∧
    some "application/msgpack" ≠ some "application/json" := by
  exact ⟨rfl, rfl, by decide⟩

/-- C3 (amended): `Accept: application/msgpack` is not merely a default — the
`ClientContext` constructor always writes it, overwriting any `Accept` entry
the caller's headers object already carried; every other caller header entry
is left unchanged. -/
theorem C3_accept_overwritten (path : List String) (args : List (String × Val))
    (rt : RpcType) (opts : COpts) (heap : HHeap) (fresh r : Nat)
    (h : opts.headers = some r) :
    (mkClientContext path args rt opts heap fresh).1.headersRef = r ∧
    hget ((mkClientContext path args rt opts heap fresh).2 r) "accept" =
      some "application/msgpack" ∧
    (∀ k : String, strLower k ≠ "accept" →
        hget ((mkClientContext path args rt opts heap fresh).2 r) k = hget (heap r) k) := by
  obtain ⟨oh⟩ := opts
  cases h
  refine ⟨rfl, ?_, ?_⟩
  · show hget (hupdate heap r (hset (heap r) "accept" "application/msgpack") r) "accept" =
      some "application/msgpack"
    rw [hupdate, if_pos rfl, hget_hset_self]
  · intro k hk
    show hget (hupdate heap r (hset (heap r) "accept" "application/msgpack") r) k = hget (heap r) k
    rw [hupdate, if_pos rfl, hget_hset_other]
    simpa using hk

/-- C3 witness: concrete caller headers at address 2; `accept` is
overwritten, the unrelated entry survives. -/
theorem C3_accept_overwritten_witness :
    (mkClientContext ["a"] [] .get { headers := some 2 }
        (fun _ => [("x-custom", "1")]) 0).1.headersRef = 2 ∧
    hget ((mkClientContext ["a"] [] .get { headers := some 2 }
        (fun _ => [("x-custom", "1")]) 0).2 2) "accept" = some "application/msgpack" ∧
    hget ((mkClientContext ["a"] [] .get { headers := some 2 }
        (fun _ => [("x-custom", "1")]) 0).2 2) "x-custom" = some "1" := by
  have h := C3_accept_overwritten ["a"] [] .get { headers := some 2 }
    (fun _ => [("x-custom", "1")]) 0 2 rfl
  exact ⟨h.1, h.2.1, (h.2.2 "x-custom" (by decide)).trans rfl⟩

/-- For a command context without upload values, the transport's header
effect is exactly one `Content-Type: application/msgpack` write on the
context's `Headers` object. -/
theorem transportHeaderStep_command (ctx : CCtx) (heap : HHeap)
    (hrt : ctx.rpcType = .command)
    (hup : (extractUploads ctx.rpcType ctx.args).2 = []) :
    transportHeaderStep ctx heap =
      hupdate heap ctx.headersRef
        (hset (heap ctx.headersRef) "Content-Type" "application/msgpack") := by
  rw [hrt] at hup
  simp only [transportHeaderStep, hrt, hup, List.isEmpty_nil, Bool.not_true, reqKindOf,
    if_neg Bool.false_ne_true]

/-- C10: when the caller passes a `Headers` object, the context adopts that
very object (the context's reference is the caller's), the constructor
writes `accept: application/msgpack` into it, and for a command call without
uploads the transport writes `Content-Type: application/msgpack` into it —
both mutations being observable afterwards through the caller's own
reference. -/
theorem C10_headers_aliasing (path : List String) (args : List (String × Val))
    (opts : COpts) (heap : HHeap) (fresh r : Nat)
    (h : opts.headers = some r)
    (hup : (extractUploads .command args).2 = []) :
    (mkClientContext path args .command opts heap fresh).1.headersRef = r ∧
    hget ((mkClientContext path args .command opts heap fresh).2 r) "accept" =
      some "application/msgpack" ∧
    hget ((transportHeaderStep (mkClientContext path args .command opts heap fresh).1
        (mkClientContext path args .command opts heap fresh).2) r) "content-type" =
      some "application/msgpack" ∧
    hget ((transportHeaderStep (mkClientContext path args .command opts heap fresh).1
        (mkClientContext path args .command opts heap fresh).2) r) "accept" =
      some "application/msgpack" := by
  obtain ⟨oh⟩ := opts
  cases h
  have hctx : mkClientContext path args .command ⟨some r⟩ heap fresh =
      ({ path := path, args := args, rpcType := .command, headersRef := r },
        hupdate heap r (hset (heap r) "accept" "application/msgpack")) := rfl
  have hstep := transportHeaderStep_command
    (mkClientContext path args .command ⟨some r⟩ heap fresh).1
    (mkClientContext path args .command ⟨some r⟩ heap fresh).2
    (by rw [hctx]) (by rw [hctx]; exact hup)
  rw [hctx] at hstep
  refine ⟨rfl, ?_, ?_, ?_⟩
  · show hget (hupdate heap r (hset (heap r) "accept" "application/msgpack") r) "accept" =
      some "application/msgpack"
    rw [hupdate, if_pos rfl, hget_hset_self]
  · rw [hctx, hstep]
    show hget (hupdate _ r (hset _ "Content-Type" "application/msgpack") r) "content-type" =
      some "application/msgpack"
    rw [hupdate, if_pos rfl, hget_hset_lower _ _ _ _ (by decide)]
  · rw [hctx, hstep]
    show hget (hupdate _ r (hset _ "Content-Type" "application/msgpack") r) "accept" =
      some "application/msgpack"
    rw [hupdate, if_pos rfl, hget_hset_other _ _ _ _ (by decide)]
    show hget (hupdate heap r (hset (heap r) "accept" "application/msgpack") r) "accept" =
      some "application/msgpack"
    rw [hupdate, if_pos rfl, hget_hset_self]

/-- C10 witness: concrete caller headers at address 5, a command call with a
plain (non-file) argument; both writes land on the caller's object. -/
theorem C10_headers_aliasing_witness :
    (mkClientContext ["posts", "create"] [("title", .vStr "x")] .command
        { headers := some 5 } (fun _ => []) 9).1.headersRef = 5 ∧
    hget ((mkClientContext ["posts", "create"] [("title", .vStr "x")] .command
        { headers := some 5 } (fun _ => []) 9).2 5) "accept" = some "application/msgpack" ∧
    hget ((transportHeaderStep
        (mkClientContext ["posts", "create"] [("title", .vStr "x")] .command
          { headers := some 5 } (fun _ => []) 9).1
        (mkClientContext ["posts", "create"] [("title", .vStr "x")] .command
          { headers := some 5 } (fun _ => []) 9).2) 5) "content-type" =
      some "application/msgpack" ∧
    hget ((transportHeaderStep
        (mkClientContext ["posts", "create"] [("title", .vStr "x")] .command
          { headers := some 5 } (fun _ => []) 9).1
        (mkClientContext ["posts", "create"] [("title", .vStr "x")] .command
          { headers := some 5 } (fun _ => []) 9).2) 5) "accept" =
      some "application/msgpack" :=
  C10_headers_aliasing ["posts", "create"] [("title", .vStr "x")]
    { headers := some 5 } (fun _ => []) 9 5 rfl rfl

/-- A demo query endpoint at `users.getProfile`. -/
def profileDescriptor : Descriptor :=
  { rpcType := .query, implementation := fun _ s => .ok (.vStr "profile") s }

/-- The nested definition `{users: {getProfile: tango.query(...)}}`. -/
def demoApiUsers : ApiNode :=
  .branch [] [("users", .branch [] [("getProfile", .leaf [] profileDescriptor)])]

/-- C1: the client transport builds the kebab-normalized dot-joined route key
`users.get-profile` into the URL, but the dispatcher in the source splits the
host-supplied path on `/` and matches the raw (non-kebab) identifier names,
so the client's path string is NOT resolved to the endpoint's descriptor —
it yields `404 RPC method not found` — while the pre-0.2.0 slash-joined raw
path `users/getProfile` still resolves and executes the endpoint. -/
theorem C1_route_lookup_divergence :
    routeKey ["users", "getProfile"] = "users.get-profile" ∧
    clientUrl "/api" ["users", "getProfile"] = "/api/users.get-profile" ∧
    createHandlerRun demoApiUsers
        { method := "GET", pathParam := some "users.get-profile", headers := [] } =
      mkTextResponse 404 "RPC method not found" ∧
    (createHandlerRun demoApiUsers
        { method := "GET", pathParam := some "users/getProfile", headers := [] }).status = 200 ∧
    (createHandlerRun demoApiUsers
        { method := "GET", pathParam := some "users/getProfile", headers := [] }).body =
      .packOf (.vStr "profile") := by
  exact ⟨by decide, by decide, rfl, rfl, rfl⟩

/-- A demo command endpoint at `posts.create`. -/
def ranDescriptor : Descriptor :=
  { rpcType := .command, implementation := fun _ s => .ok (.vStr "ran") s }

/-- The nested definition `{posts: {create: tango.command(...)}}`. -/
def demoApiPosts : ApiNode :=
  .branch [] [("posts", .branch [] [("create", .leaf [] ranDescriptor)])]

/-- A POST to that command endpoint with `Content-Type: text/plain` and an
empty body. -/
def plainTextPost : Req :=
  { method := "POST", pathParam := some "posts/create"
    headers := [("content-type", "text/plain")], body := .empty }

/-- C2: a POST command whose `Content-Type` is `text/plain` — none of
multipart/form-data, application/json, application/msgpack — is NOT answered
with 415: the dispatcher's content-type switch has no 415 branch and falls
through to the MessagePack body parser, so the empty body parses to `{}` and
the endpoint implementation runs (status 200 with its result, not 415). -/
theorem C2_unsupported_media_type_divergence :
    (createHandlerRun demoApiPosts plainTextPost).status = 200 ∧
    (createHandlerRun demoApiPosts plainTextPost).body = .packOf (.vStr "ran") ∧
    (createHandlerRun demoApiPosts plainTextPost).status ≠ 415 := by
  exact ⟨rfl, rfl, by decide⟩

/-- `makeResponse` keeps the context's status. -/
theorem makeResponse_status (result : Val) (s : CtxState) (req : Req) :
    (makeResponse result s req).status = s.status := rfl

/-- `makeResponse` serializes the result per the request's `Accept`. -/
theorem makeResponse_body (result : Val) (s : CtxState) (req : Req) :
    (makeResponse result s req).body =
      (if prefersJsonOf req then RespBody.jsonOf result else RespBody.packOf result) := rfl

/-- With a zero cache directive `makeResponse` emits only the timing and
content-type headers on top of the context's response headers. -/
theorem makeResponse_headers_nocache (result : Val) (s : CtxState) (req : Req)
    (hc : s.cache = 0) :
    (makeResponse result s req).headers =
      hset (hset s.respHeaders "X-Tango-Execution-Time" (toString s.elapsed))
        "Content-Type"
        (if prefersJsonOf req then "application/json" else "application/msgpack") := by
  simp [makeResponse, hc]

/-- C6: for every request that reaches its endpoint (method gate, route
lookup, compatibility and argument parsing all passing) whose pipeline run
ends in a schema failure carrying issues, the handler responds with
`X-Tango-Validation-Error: true`, a zeroed cache directive and hence no
`Cache-Control` header (provided no middleware set one by hand), status 422,
and the serialized issues array as the body. -/
theorem C6_validation_failure_response (api : ApiNode) (req : Req) (p : String)
    (d : Descriptor) (mws : List SMw) (a : Val) (e : JsError) (issues : List String)
    (s' : CtxState)
    (hmeth : req.method = "GET" ∨ req.method = "POST")
    (hpath : req.pathParam = some p) (hp : p ≠ "")
    (hfind : findRpcMethodDescriptor (jsSplitSlash p) api = some (d, mws))
    (hacc : acceptedRequest req.method d.rpcType = true)
    (hparse : parseArgs d.rpcType req = .ok a)
    (hrun : pipelineRun (initCtx a) (mws ++ [terminalStage d]) = .err e s')
    (hzod : e.zodIssues = some issues)
    (hnocache : hget s'.respHeaders "Cache-Control" = none) :
    createHandlerRun api req =
      makeResponse (.vArr (issues.map .vStr)) (zodFailureCtx s') req ∧
    (createHandlerRun api req).status = 422 ∧
    hget (createHandlerRun api req).headers "X-Tango-Validation-Error" = some "true" ∧
    hget (createHandlerRun api req).headers "Cache-Control" = none ∧
    (createHandlerRun api req).body =
      (if prefersJsonOf req then RespBody.jsonOf (.vArr (issues.map .vStr))
       else RespBody.packOf (.vArr (issues.map .vStr))) := by
  have hcontains : (["GET", "POST"].contains req.method) = true := by
    rcases hmeth with h | h <;> simp [h]
  have hmain : createHandlerRun api req =
      makeResponse (.vArr (issues.map .vStr)) (zodFailureCtx s') req := by
    simp only [createHandlerRun, hcontains, Bool.not_true, Bool.false_eq_true, if_false,
      hpath, hp, if_neg, hfind, hacc, hparse, hrun, hzod]
  have hcache0 : (zodFailureCtx s').cache = 0 := rfl
  have hhdr := makeResponse_headers_nocache (.vArr (issues.map .vStr)) (zodFailureCtx s') req hcache0
  have hbase : (zodFailureCtx s').respHeaders =
      hset s'.respHeaders "X-Tango-Validation-Error" "true" := rfl
  refine ⟨hmain, ?_, ?_, ?_, ?_⟩
  · rw [hmain, makeResponse_status]
    rfl
  · rw [hmain, hhdr, hbase, hget_hset_other _ _ _ _ (by decide),
      hget_hset_other _ _ _ _ (by decide), hget_hset_self]
  · rw [hmain, hhdr, hbase, hget_hset_other _ _ _ _ (by decide),
      hget_hset_other _ _ _ _ (by decide), hget_hset_other _ _ _ _ (by decide), hnocache]
  · rw [hmain, makeResponse_body]

/-- A schema whose `parse` always raises one issue. -/
def failingSchema : Val → Except (List String) Val := fun _ => .error ["Too small"]

/-- A command endpoint bound to the failing schema. -/
def validatedDescriptor : Descriptor :=
  { rpcType := .command, zodSchema := some failingSchema
    implementation := fun _ s => .ok .vNull s }

/-- `{posts: {create: tango.zod(...).command(...)}}`. -/
def demoApiValidated : ApiNode :=
  .branch [] [("posts", .branch [] [("create", .leaf [] validatedDescriptor)])]

/-- A msgpack-encoded POST to the validated endpoint. -/
def msgpackPost : Req :=
  { method := "POST", pathParam := some "posts/create"
    headers := [("content-type", "application/msgpack")]
    body := .msgpackOf (.vObj [("title", .vStr "Hi")]) }

/-- C6 witness: the concrete validation failure yields 422, the validation
header, no `Cache-Control`, and the packed issues array. -/
theorem C6_validation_failure_response_witness :
    (createHandlerRun demoApiValidated msgpackPost).status = 422 ∧
    hget (createHandlerRun demoApiValidated msgpackPost).headers
      "X-Tango-Validation-Error" = some "true" ∧
    hget (createHandlerRun demoApiValidated msgpackPost).headers "Cache-Control" = none ∧
    (createHandlerRun demoApiValidated msgpackPost).body =
      .packOf (.vArr [.vStr "Too small"]) := by
  have h := C6_validation_failure_response demoApiValidated msgpackPost "posts/create"
    validatedDescriptor [] (.vObj [("title", .vStr "Hi")])
    { message := "ZodError", zodIssues := some ["Too small"] } ["Too small"]
    (initCtx (.vObj [("title", .vStr "Hi")]))
    (Or.inr rfl) rfl (by decide) rfl rfl rfl rfl rfl rfl
  exact ⟨h.2.1, h.2.2.1, h.2.2.2.1, by rw [h.2.2.2.2]; rfl⟩
